import Mathlib

/-!
Verification of the per-worker connection handler
(`source/server/connection_handler_impl.h`) and the internal listener primitive
(`source/common/network/internal_listener_impl.cc`).

The stateful accounting code is embedded as an explicit transition system:
`ListenerState` carries the per-listener stats, counters and (ghost) object
counts that the inline member functions of `ActiveTcpListener` /
`ActiveInternalListener` mutate; each member function becomes a Lean function
on `ListenerState`, and program executions become lists of events folded by an
executable `step` function.  All counters in the source are `uint64_t` that are
only ever decremented under a positivity precondition (the `ASSERT`s in the
source), so `Nat` arithmetic is exact on every reachable state.

`ActiveTcpListener` and `ActiveInternalListener` have textually identical
bodies for every member modelled here (stats, `incNumConnections`,
`decNumConnections`, `onNewConnection`, `onDestroyConnection`, and the
`ActiveTcpSocket` / `ActiveInternalSocket` constructor and destructor), so one
set of definitions models both; each definition cites both line ranges.
-/

namespace Envoy

/-! ## Per-listener state

Fields named after the members of `ListenerStats` (connection_handler_impl.h:32-48),
`PerHandlerListenerStats` (:50-59), `num_listener_connections_` (:234, :326) and the
external `config_->openConnections()` limiter occupancy (spec section 6: a resource
limit with `inc`/`dec`/`canCreate`).  `live_connections` and `live_sockets` are ghost
counts of the live `ActiveTcpConnection` objects in the listener's buckets and the
live `ActiveTcpSocket`/`ActiveInternalSocket` objects; they change exactly when such
an object is created or destroyed. -/
structure ListenerState where
  downstream_cx_total : Nat
  downstream_cx_destroy : Nat
  downstream_cx_active : Nat
  downstream_pre_cx_active : Nat
  downstream_global_cx_overflow : Nat
  per_worker_cx_total : Nat
  per_worker_cx_active : Nat
  num_listener_connections : Nat
  open_connections : Nat
  live_connections : Nat
  live_sockets : Nat
deriving Repr, DecidableEq

/-- The all-zero state of a freshly added listener. -/
def initListener : ListenerState :=
  ⟨0, 0, 0, 0, 0, 0, 0, 0, 0, 0, 0⟩

/-- `ActiveTcpListener::incNumConnections` (connection_handler_impl.h:189-192) and the
identical `ActiveInternalListener::incNumConnections` (:249-252):
`++num_listener_connections_; config_->openConnections().inc();`. -/
def ListenerState.incNumConnections (s : ListenerState) : ListenerState :=
  { s with num_listener_connections := s.num_listener_connections + 1
           open_connections := s.open_connections + 1 }

/-- `ActiveTcpListener::decNumConnections` (connection_handler_impl.h:147-151) and the
identical `ActiveInternalListener::decNumConnections` (:254-258):
`ASSERT(num_listener_connections_ > 0); --num_listener_connections_;
config_->openConnections().dec();`.  The `ASSERT` makes
`0 < num_listener_connections` a precondition; every caller in this model
establishes it. -/
def ListenerState.decNumConnections (s : ListenerState) : ListenerState :=
  { s with num_listener_connections := s.num_listener_connections - 1
           open_connections := s.open_connections - 1 }

/-- Stat effect of `ActiveTcpListener::onNewConnection` (connection_handler_impl.h:164-173)
and the identical `ActiveInternalListener::onNewConnection` (:270-276):
`downstream_cx_total_.inc(); downstream_cx_active_.inc();
per_worker_stats_.downstream_cx_total_.inc(); per_worker_stats_.downstream_cx_active_.inc();`.
The trailing `++parent_.num_handler_connections_` is modelled at the handler level
in `stepHandler`. -/
def ListenerState.onNewConnection (s : ListenerState) : ListenerState :=
  { s with downstream_cx_total := s.downstream_cx_total + 1
           downstream_cx_active := s.downstream_cx_active + 1
           per_worker_cx_total := s.per_worker_cx_total + 1
           per_worker_cx_active := s.per_worker_cx_active + 1 }

/-- Stat effect of `ActiveTcpListener::onDestroyConnection` (connection_handler_impl.h:174-182)
and the identical `ActiveInternalListener::onDestroyConnection` (:277-283):
`downstream_cx_active_.dec(); downstream_cx_destroy_.inc();
per_worker_stats_.downstream_cx_active_.dec(); decNumConnections();`.
The trailing `parent_.decNumConnections()` is modelled at the handler level. -/
def ListenerState.onDestroyConnection (s : ListenerState) : ListenerState :=
  ListenerState.decNumConnections
    { s with downstream_cx_active := s.downstream_cx_active - 1
             downstream_cx_destroy := s.downstream_cx_destroy + 1
             per_worker_cx_active := s.per_worker_cx_active - 1 }

/-- Listener-visible effect of the `ActiveTcpSocket` constructor
(connection_handler_impl.h:380-392) and the identical `ActiveInternalSocket`
constructor (:454-464): `stream_listener_.stats_.downstream_pre_cx_active_.inc();`
plus the creation of one more live socket object. -/
def ListenerState.socketConstructed (s : ListenerState) : ListenerState :=
  { s with downstream_pre_cx_active := s.downstream_pre_cx_active + 1
           live_sockets := s.live_sockets + 1 }

/-- Listener-visible effect of `~ActiveTcpSocket` (connection_handler_impl.h:393-407)
and the identical `~ActiveInternalSocket` (:465-479):
`stream_listener_.stats_.downstream_pre_cx_active_.dec();
if (socket_ != nullptr) stream_listener_.decNumConnections();`.
`attached` models `socket_ != nullptr`, i.e. the socket was never moved into an
`ActiveTcpConnection`. -/
def ListenerState.socketDestructed (attached : Bool) (s : ListenerState) : ListenerState :=
  let s1 := { s with downstream_pre_cx_active := s.downstream_pre_cx_active - 1
                     live_sockets := s.live_sockets - 1 }
  if attached then s1.decNumConnections else s1

/-- `ActiveTcpListener::onReject` (connection_handler_impl.h:155):
`stats_.downstream_global_cx_overflow_.inc();`. -/
def ListenerState.onReject (s : ListenerState) : ListenerState :=
  { s with downstream_global_cx_overflow := s.downstream_global_cx_overflow + 1 }

/-! ## Listener events

One constructor per operation of the listener that touches the state above.
`connNew` bundles the creation of an `ActiveTcpConnection` with the
`onNewConnection()` call, and `connDestroy` bundles `removeConnection` (stop the
timespan, call `onDestroyConnection()`, unlink the connection) with the
destruction of the connection object, following the contracts of spec
sections 4.2 (`newConnection` / `removeConnection`); the member-function bodies
themselves are taken from the header as cited above. -/
inductive ListenerEvent where
  | incNum : ListenerEvent
  | decNum : ListenerEvent
  | sockCreate : ListenerEvent
  | sockDestroy (attached : Bool) : ListenerEvent
  | connNew : ListenerEvent
  | connDestroy : ListenerEvent
  | reject : ListenerEvent
deriving Repr, DecidableEq

/-- One listener step.  Guards are the preconditions under which the source can
perform the operation: a destructor only runs on a live object, and
`decNumConnections` carries `ASSERT(num_listener_connections_ > 0)`. -/
def stepListener : ListenerEvent → ListenerState → Option ListenerState
  | .incNum, s => some s.incNumConnections
  | .decNum, s =>
      if 0 < s.num_listener_connections then some s.decNumConnections else none
  | .sockCreate, s => some s.socketConstructed
  | .sockDestroy attached, s =>
      if 0 < s.live_sockets ∧ (attached = true → 0 < s.num_listener_connections)
      then some (s.socketDestructed attached) else none
  | .connNew, s =>
      some { s.onNewConnection with live_connections := s.live_connections + 1 }
  | .connDestroy, s =>
      if 0 < s.live_connections ∧ 0 < s.num_listener_connections
      then some { s.onDestroyConnection with live_connections := s.live_connections - 1 }
      else none
  | .reject, s => some s.onReject

/-- Run a sequence of listener events from a state. -/
def runListener : List ListenerEvent → ListenerState → Option ListenerState
  | [], s => some s
  | e :: es, s =>
      match stepListener e s with
      | none => none
      | some s' => runListener es s'

/-! ## Handler state

`ConnectionHandlerImpl` owns `num_handler_connections_` (connection_handler_impl.h:548)
and the sequence of listeners (:547). -/
structure HandlerState where
  num_handler_connections : Nat
  listeners : List ListenerState
deriving Repr, DecidableEq

/-- `ConnectionHandlerImpl::numConnections` (connection_handler_impl.h:74):
`return num_handler_connections_;`. -/
def HandlerState.numConnections (h : HandlerState) : Nat :=
  h.num_handler_connections

/-- Modelled from the spec: the body of `ConnectionHandlerImpl::decNumConnections`
(declared at connection_handler_impl.h:76, called by `onDestroyConnection` at :181
and :282) is in `connection_handler_impl.cc`, which is not among the source files.
Spec section 4.1 lists it as the handler-level pair of `incNumConnections`, the
decrement of the handler's global active-connection counter. -/
def handlerDecNumConnections (n : Nat) : Nat := n - 1

/-- A handler event: a listener event happening on listener `i`.
`connNew` additionally performs `++parent_.num_handler_connections_`
(connection_handler_impl.h:172, :275) and `connDestroy` additionally performs
`parent_.decNumConnections()` (:181, :282). -/
def stepHandler (i : Nat) (e : ListenerEvent) (h : HandlerState) : Option HandlerState :=
  (h.listeners.get? i).bind fun ls =>
    (stepListener e ls).map fun ls' =>
      { num_handler_connections :=
          match e with
          | .connNew => h.num_handler_connections + 1
          | .connDestroy => handlerDecNumConnections h.num_handler_connections
          | _ => h.num_handler_connections
        listeners := h.listeners.set i ls' }

/-- Run a sequence of handler events. -/
def runHandler : List (Nat × ListenerEvent) → HandlerState → Option HandlerState
  | [], h => some h
  | (i, e) :: es, h =>
      match stepHandler i e h with
      | none => none
      | some h' => runHandler es h'

/-- A fresh handler owning `n` freshly added listeners. -/
def initHandler (n : Nat) : HandlerState :=
  ⟨0, List.replicate n initListener⟩

/-- Total number of live `ActiveTcpConnection` objects across all buckets of all
listeners owned by the handler (a listener's buckets partition its connections,
so the per-listener ghost count is their total). -/
def HandlerState.totalLiveConnections (h : HandlerState) : Nat :=
  (h.listeners.map (fun l => l.live_connections)).sum

/-! ## The listener-filter pipeline of an active socket

`ActiveTcpSocket` (connection_handler_impl.h:376-445) and the identical
`ActiveInternalSocket` (:450-516) hold `accept_filters_` (a `std::list` of
filter wrappers) and the iterator `iter_` into it.  The iterator is modelled as
`Option Nat`: `none` is the `end()` sentinel (a `std::list`'s `end()` is a fixed
node, so an iterator equal to `end()` stays equal to `end()` when elements are
appended), `some i` points at the filter at position `i`. -/

/-- What one accept filter does to this socket: whether the filter's matcher
excludes it (spec section 4.4 "evaluate the current filter's matcher against the
socket; if it excludes the filter, advance"), and the status the filter returns
when called. -/
inductive FilterReturn where
  | Continue : FilterReturn
  | StopIteration : FilterReturn
deriving Repr, DecidableEq

structure FilterSpec where
  excluded : Bool
  ret : FilterReturn
deriving Repr, DecidableEq

/-- Pipeline-relevant state of an `ActiveTcpSocket` / `ActiveInternalSocket`.
`processed` and `started` are ghost history variables: the number of filters the
driving loop has consumed (run to completion or excluded by their matcher) and
whether `continueFilterChain` has ever been entered. -/
structure SocketPipeline where
  accept_filters : List FilterSpec
  iter : Option Nat
  started : Bool
  aborted : Bool
  processed : Nat
deriving Repr, DecidableEq

/-- The `ActiveTcpSocket` constructor (connection_handler_impl.h:380-392) and the
identical `ActiveInternalSocket` constructor (:454-459): `accept_filters_` is
empty and `iter_(accept_filters_.end())` (:387, :459). -/
def mkSocketPipeline : SocketPipeline :=
  ⟨[], none, false, false, 0⟩

/-- `ActiveTcpSocket::addAcceptFilter` (connection_handler_impl.h:417-421) and the
identical `ActiveInternalSocket::addAcceptFilter` (:489-493):
`accept_filters_.emplace_back(...)`.  Appending to a `std::list` invalidates no
iterator, and `end()` remains `end()`, so `iter` is unchanged. -/
def addAcceptFilter (f : FilterSpec) (p : SocketPipeline) : SocketPipeline :=
  { p with accept_filters := p.accept_filters ++ [f] }

/-- `ActiveTcpSocket::isListenerFiltersCompleted` (connection_handler_impl.h:413) and
the identical `ActiveInternalSocket::isListenerFiltersCompleted` (:485):
`return iter_ == accept_filters_.end();`. -/
def isListenerFiltersCompleted (p : SocketPipeline) : Bool :=
  p.iter.isNone

/-- Modelled from the spec: the driving loop of
`ActiveTcpSocket::continueFilterChain` (declared at connection_handler_impl.h:426,
:498) is in `connection_handler_impl.cc`, which is not among the source files.
Spec section 4.4: "while the cursor is not at end, evaluate the current filter's
matcher against the socket; if it excludes the filter, advance and continue;
otherwise call the filter ... If the filter returns continue, advance the cursor
and re-enter the loop; if stop iteration, suspend.  The cursor remains on the
suspended filter."  `drive fs base` runs the loop over the suffix `fs` of the
filter list whose first element sits at absolute position `base`; it returns the
resulting cursor: `none` when the loop ran off the end, `some j` when it
suspended on the filter at position `j`. -/
def drive : List FilterSpec → Nat → Option Nat
  | [], _ => none
  | f :: rest, base =>
      if f.excluded then drive rest (base + 1)
      else
        match f.ret with
        | .Continue => drive rest (base + 1)
        | .StopIteration => some base

/-- The loop entry position: the cursor sits on the suspended filter, so a resume
advances past it; from the `end()` sentinel of a never-started chain the loop
begins at the first filter (spec section 4.2 "Begin iterating filters"). -/
def resumeIndex (p : SocketPipeline) : Nat :=
  match p.iter with
  | none => 0
  | some i => i + 1

/-- Modelled from the spec: `continueFilterChain(success)` (spec section 4.4) —
"if success is false, destroy the ActiveSocket ... If true and there are more
filters, resume the loop.  If true and the cursor is at end, call
newConnection."  `aborted` records the destruction of the socket on failure;
the ghost `processed` becomes the number of filters consumed by the loop. -/
def continueFilterChain (success : Bool) (p : SocketPipeline) : SocketPipeline :=
  match success with
  | true =>
      { p with iter := drive (p.accept_filters.drop (resumeIndex p)) (resumeIndex p)
               started := true
               processed :=
                 match drive (p.accept_filters.drop (resumeIndex p)) (resumeIndex p) with
                 | none => p.accept_filters.length
                 | some j => j }
  | false => { p with aborted := true }

/-- The states an `ActiveTcpSocket` / `ActiveInternalSocket` pipeline can reach:
it is constructed, filters are added while the chain has not started running
(spec section 4.2: `onAcceptWorker` populates the filter list from the listener
config and only then begins iterating filters), and `continueFilterChain` drives
it (initial drive, resume after suspension, or abort). -/
inductive SockReach : SocketPipeline → Prop where
  | ctor : SockReach mkSocketPipeline
  | addFilter (p : SocketPipeline) (f : FilterSpec) :
      SockReach p → p.started = false → SockReach (addAcceptFilter f p)
  | cont (p : SocketPipeline) (b : Bool) :
      SockReach p → p.aborted = false → SockReach (continueFilterChain b p)

/-- The spec-side notion the claim compares the cursor against: the filter chain
has completed without suspension — the loop has been entered and every filter in
the chain has been consumed (run to completion or excluded), and the socket is
not sitting suspended on any filter. -/
def chainCompleted (p : SocketPipeline) : Prop :=
  p.started = true ∧ p.processed = p.accept_filters.length

/-! ## Connection events (C5) -/

/-- `Network::ConnectionEvent` (external interface `envoy/network/connection.h`):
the connection-level events delivered to `ConnectionCallbacks::onEvent`. -/
inductive ConnectionEvent where
  | RemoteClose : ConnectionEvent
  | LocalClose : ConnectionEvent
  | Connected : ConnectionEvent
deriving Repr, DecidableEq

/-- Actions an `ActiveTcpConnection` callback can take on its owners. -/
inductive ConnCallbackAction where
  | removeConnection : ConnCallbackAction
deriving Repr, DecidableEq

/-- `ActiveTcpConnection::onEvent` (connection_handler_impl.h:357-363):
`if (event == LocalClose || event == RemoteClose)
  active_connections_.listener_.removeConnection(*this);`
Returns the actions the callback performs. -/
def ActiveTcpConnection.onEvent (event : ConnectionEvent) : List ConnCallbackAction :=
  if event = ConnectionEvent.LocalClose ∨ event = ConnectionEvent.RemoteClose then
    [ConnCallbackAction.removeConnection]
  else
    []

/-- `ActiveTcpConnection::onAboveWriteBufferHighWatermark` (connection_handler_impl.h:364):
empty body. -/
def ActiveTcpConnection.onAboveWriteBufferHighWatermark : List ConnCallbackAction := []

/-- `ActiveTcpConnection::onBelowWriteBufferLowWatermark` (connection_handler_impl.h:365):
empty body. -/
def ActiveTcpConnection.onBelowWriteBufferLowWatermark : List ConnCallbackAction := []

/-! ## Internal listener enable/disable (C6) -/

/-- Outcome of calling a member: normal return, or the loud
`NOT_IMPLEMENTED_GCOVR_EXCL_LINE` failure (a `PANIC` that aborts the process,
from `common/common/assert.h`). -/
inductive CallOutcome where
  | ok : CallOutcome
  | notImplementedAbort : CallOutcome
deriving Repr, DecidableEq

/-- `InternalListenerImpl::enable` (internal_listener_impl.cc:39):
`NOT_IMPLEMENTED_GCOVR_EXCL_LINE;`. -/
def InternalListenerImpl.enable : CallOutcome := CallOutcome.notImplementedAbort

/-- `InternalListenerImpl::disable` (internal_listener_impl.cc:41):
`NOT_IMPLEMENTED_GCOVR_EXCL_LINE;`. -/
def InternalListenerImpl.disable : CallOutcome := CallOutcome.notImplementedAbort

/-- `ActiveInternalListener::pauseListening` (connection_handler_impl.h:265):
`internal_listener_->disable();`. -/
def ActiveInternalListener.pauseListening : CallOutcome := InternalListenerImpl.disable

/-- `ActiveInternalListener::resumeListening` (connection_handler_impl.h:266):
`internal_listener_->enable();`. -/
def ActiveInternalListener.resumeListening : CallOutcome := InternalListenerImpl.enable

/-! ## The internal-listener accept path (C7) -/

/-- A dynamic-metadata blob (`envoy::config::core::v3::Metadata`), represented
opaquely as an association list; only emptiness and equality matter here. -/
def DynMetadata := List (String × String)
deriving instance Repr, DecidableEq for DynMetadata

/-- A connection socket as seen by the accept path: the three addresses the
active-socket constructors copy into stream info, each an opaque identifier. -/
structure ConnectionSocket where
  localAddress : Nat
  remoteAddress : Nat
  directRemoteAddress : Nat
deriving Repr, DecidableEq

/-- The stream-info fields the accept path writes. -/
structure StreamInfo where
  downstreamLocalAddress : Option Nat
  downstreamRemoteAddress : Option Nat
  downstreamDirectRemoteAddress : Option Nat
  dynamicMetadata : DynMetadata
deriving Repr, DecidableEq

/-- What the callback registered by `InternalListenerImpl::setUpInternalListener`
(internal_listener_impl.cc:24-31) delivers: the lambda takes a peer address and a
`ConnectionSocket` and invokes `cb_.onNewSocket(std::move(internal_conn_socket))`
— it carries no dynamic-metadata blob. -/
structure AcceptDelivery where
  socket : ConnectionSocket
deriving Repr, DecidableEq

/-- The registered accept callback (internal_listener_impl.cc:27-30) as a function
from what the dispatcher hands it to what reaches `onNewSocket`. -/
def internalAcceptCallback (_peerAddress : Nat) (sock : ConnectionSocket) : AcceptDelivery :=
  ⟨sock⟩

/-- The stream info of a freshly constructed `ActiveInternalSocket`
(connection_handler_impl.h:454-464): a fresh `StreamInfoImpl` whose three
downstream addresses are set from the socket; nothing in the constructor or in
the accept path writes its dynamic metadata, so the pre-connection pipeline
starts with it empty. -/
def mkInternalSocketStreamInfo (sock : ConnectionSocket) : StreamInfo :=
  ⟨some sock.localAddress, some sock.remoteAddress, some sock.directRemoteAddress, []⟩

/-- The code's end-to-end accept path for an internal listener: the dispatcher
invokes the registered callback, `onNewSocket` receives the delivered socket and
constructs the `ActiveInternalSocket`; this is that socket's stream info when
the pre-connection filter pipeline starts.  `peerMetadata` is the blob the spec
says the initiating peer filter supplies; the registered callback's signature
has no metadata parameter, so the path cannot consume it. -/
def internalAcceptPathStreamInfo (peerAddress : Nat) (sock : ConnectionSocket)
    (_peerMetadata : DynMetadata) : StreamInfo :=
  mkInternalSocketStreamInfo (internalAcceptCallback peerAddress sock).socket

/-- Modelled from the spec for comparison (section 4.3): "The accept callback
supplies a socket plus a dynamic-metadata blob from the initiating peer filter;
the metadata is stored into the ActiveInternalSocket's stream info before the
pre-connection pipeline starts." -/
def specInternalAcceptStreamInfo (sock : ConnectionSocket)
    (peerMetadata : DynMetadata) : StreamInfo :=
  { mkInternalSocketStreamInfo sock with dynamicMetadata := peerMetadata }

/-! ## UDP shutdown ordering (C9) -/

/-- The two members `ActiveRawUdpListener::shutdownListener` releases. -/
inductive UdpMember where
  | readFilter : UdpMember
  | udpListener : UdpMember
deriving Repr, DecidableEq

/-- `ActiveRawUdpListener::shutdownListener` (connection_handler_impl.h:615-622), as
the sequence of releases it performs in order:
`read_filter_.reset(); udp_listener_.reset();`. -/
def shutdownListenerReleaseOrder : List UdpMember :=
  [UdpMember.readFilter, UdpMember.udpListener]

/-! ## Invariants -/

/-- The inductive invariant of one listener's accounting: the active gauge counts
the live connection objects, totals split into destroyed plus active, the
pre-connection gauge counts the live socket objects, and the limiter occupancy
tracks the per-listener connection counter. -/
def ListenerInv (s : ListenerState) : Prop :=
  s.downstream_cx_active = s.live_connections ∧
  s.downstream_cx_total = s.downstream_cx_destroy + s.downstream_cx_active ∧
  s.downstream_pre_cx_active = s.live_sockets ∧
  s.open_connections = s.num_listener_connections

/-- The inductive invariant of the socket pipeline: before the chain starts the
cursor sits on the `end()` sentinel with nothing processed; a cursor on filter
`j` means the loop consumed exactly the first `j` filters and suspended; the
cursor reaches the sentinel of a started chain only with every filter
consumed. -/
def SockInv (p : SocketPipeline) : Prop :=
  (p.started = false → p.iter = none ∧ p.processed = 0) ∧
  (∀ j, p.iter = some j → j < p.accept_filters.length ∧ p.processed = j) ∧
  (p.started = true → p.iter = none → p.processed = p.accept_filters.length)

/-! ## Helper lemmas: the listener invariant is inductive -/

theorem listenerInv_init : ListenerInv initListener :=
  ⟨rfl, rfl, rfl, rfl⟩

theorem listenerInv_step (e : ListenerEvent) (s s' : ListenerState)
    (h : stepListener e s = some s') (hs : ListenerInv s) : ListenerInv s' := by
  obtain ⟨h1, h2, h3, h4⟩ := hs
  cases e with
  | incNum =>
      simp only [stepListener, Option.some.injEq] at h
      subst h
      simp only [ListenerInv, ListenerState.incNumConnections]
      omega
  | decNum =>
      simp only [stepListener] at h
      split at h
      · simp only [Option.some.injEq] at h
        subst h
        simp only [ListenerInv, ListenerState.decNumConnections]
        omega
      · cases h
  | sockCreate =>
      simp only [stepListener, Option.some.injEq] at h
      subst h
      simp only [ListenerInv, ListenerState.socketConstructed]
      omega
  | sockDestroy attached =>
      simp only [stepListener] at h
      split at h
      · rename_i hcond
        simp only [Option.some.injEq] at h
        subst h
        cases attached with
        | false =>
            simp only [ListenerInv, ListenerState.socketDestructed, if_neg, Bool.false_eq_true,
              if_false]
            omega
        | true =>
            have hnum := hcond.2 rfl
            simp only [ListenerInv, ListenerState.socketDestructed, if_pos,
              ListenerState.decNumConnections]
            omega
      · cases h
  | connNew =>
      simp only [stepListener, Option.some.injEq] at h
      subst h
      simp only [ListenerInv, ListenerState.onNewConnection]
      omega
  | connDestroy =>
      simp only [stepListener] at h
      split at h
      · rename_i hcond
        simp only [Option.some.injEq] at h
        subst h
        simp only [ListenerInv, ListenerState.onDestroyConnection,
          ListenerState.decNumConnections]
        omega
      · cases h
  | reject =>
      simp only [stepListener, Option.some.injEq] at h
      subst h
      simp only [ListenerInv, ListenerState.onReject]
      omega

theorem listenerInv_run : ∀ (evs : List ListenerEvent) (s s' : ListenerState),
    runListener evs s = some s' → ListenerInv s → ListenerInv s' := by
  intro evs
  induction evs with
  | nil =>
      intro s s' h hs
      simp only [runListener, Option.some.injEq] at h
      subst h
      exact hs
  | cons e es ih =>
      intro s s' h hs
      simp only [runListener] at h
      cases hst : stepListener e s with
      | none => rw [hst] at h; cases h
      | some s1 =>
          rw [hst] at h
          exact ih s1 s' h (listenerInv_step e s s1 hst hs)

/-- Effect of one listener step on the ghost count of live connection objects. -/
theorem stepListener_live_connections (e : ListenerEvent) (s s' : ListenerState)
    (h : stepListener e s = some s') :
    (e = ListenerEvent.connNew → s'.live_connections = s.live_connections + 1) ∧
    (e = ListenerEvent.connDestroy → s'.live_connections + 1 = s.live_connections) ∧
    (e ≠ ListenerEvent.connNew → e ≠ ListenerEvent.connDestroy →
      s'.live_connections = s.live_connections) := by
  cases e with
  | incNum =>
      simp only [stepListener, Option.some.injEq] at h
      subst h
      refine ⟨?_, ?_, fun _ _ => rfl⟩
      · intro hc; cases hc
      · intro hc; cases hc
  | decNum =>
      simp only [stepListener] at h
      split at h
      · simp only [Option.some.injEq] at h
        subst h
        refine ⟨?_, ?_, fun _ _ => rfl⟩
        · intro hc; cases hc
        · intro hc; cases hc
      · cases h
  | sockCreate =>
      simp only [stepListener, Option.some.injEq] at h
      subst h
      refine ⟨?_, ?_, fun _ _ => rfl⟩
      · intro hc; cases hc
      · intro hc; cases hc
  | sockDestroy attached =>
      simp only [stepListener] at h
      split at h
      · simp only [Option.some.injEq] at h
        subst h
        refine ⟨?_, ?_, fun _ _ => ?_⟩
        · intro hc; cases hc
        · intro hc; cases hc
        · cases attached <;>
            simp [ListenerState.socketDestructed, ListenerState.decNumConnections]
      · cases h
  | connNew =>
      simp only [stepListener, Option.some.injEq] at h
      subst h
      refine ⟨fun _ => rfl, ?_, ?_⟩
      · intro hc; cases hc
      · intro hc _; exact absurd rfl hc
  | connDestroy =>
      simp only [stepListener] at h
      split at h
      · rename_i hcond
        simp only [Option.some.injEq] at h
        subst h
        refine ⟨?_, fun _ => ?_, ?_⟩
        · intro hc; cases hc
        · have := hcond.1
          simp only [ListenerState.onDestroyConnection, ListenerState.decNumConnections]
          omega
        · intro _ hc; exact absurd rfl hc
      · cases h
  | reject =>
      simp only [stepListener, Option.some.injEq] at h
      subst h
      refine ⟨?_, ?_, fun _ _ => rfl⟩
      · intro hc; cases hc
      · intro hc; cases hc

/-! ## Helper lemmas: sums over the handler's listener list -/

theorem sum_map_le_of_get {α : Type} (f : α → Nat) :
    ∀ (l : List α) (i : Nat) (x : α), l.get? i = some x → f x ≤ (l.map f).sum := by
  intro l
  induction l with
  | nil => intro i x h; cases h
  | cons a t ih =>
      intro i x h
      cases i with
      | zero =>
          simp only [List.get?_cons_zero, Option.some.injEq] at h
          subst h
          simp only [List.map_cons, List.sum_cons]
          omega
      | succ n =>
          simp only [List.get?_cons_succ] at h
          have := ih n x h
          simp only [List.map_cons, List.sum_cons]
          omega

theorem sum_map_set {α : Type} (f : α → Nat) :
    ∀ (l : List α) (i : Nat) (x y : α), l.get? i = some x →
      ((l.set i y).map f).sum + f x = (l.map f).sum + f y := by
  intro l
  induction l with
  | nil => intro i x y h; cases h
  | cons a t ih =>
      intro i x y h
      cases i with
      | zero =>
          simp only [List.get?_cons_zero, Option.some.injEq] at h
          subst h
          simp only [List.set_cons_zero, List.map_cons, List.sum_cons]
          omega
      | succ n =>
          simp only [List.get?_cons_succ] at h
          have := ih n x y h
          simp only [List.set_cons_succ, List.map_cons, List.sum_cons]
          omega

/-! ## Helper lemmas: the handler-level invariant -/

theorem handlerInv_step (i : Nat) (e : ListenerEvent) (h h' : HandlerState)
    (hs : stepHandler i e h = some h')
    (hinv : h.num_handler_connections = h.totalLiveConnections) :
    h'.num_handler_connections = h'.totalLiveConnections := by
  simp only [stepHandler, Option.bind_eq_some, Option.map_eq_some'] at hs
  obtain ⟨ls, hget, ls', hstep, rfl⟩ := hs
  have hsum := sum_map_set (fun l => l.live_connections) h.listeners i ls ls' hget
  have hle := sum_map_le_of_get (fun l => l.live_connections) h.listeners i ls hget
  have hlive := stepListener_live_connections e ls ls' hstep
  simp only [HandlerState.totalLiveConnections] at hinv hsum hle ⊢
  cases e with
  | connNew =>
      have := hlive.1 rfl
      dsimp only
      omega
  | connDestroy =>
      have := hlive.2.1 rfl
      dsimp only [handlerDecNumConnections]
      omega
  | incNum =>
      have := hlive.2.2 (by intro hc; cases hc) (by intro hc; cases hc)
      dsimp only
      omega
  | decNum =>
      have := hlive.2.2 (by intro hc; cases hc) (by intro hc; cases hc)
      dsimp only
      omega
  | sockCreate =>
      have := hlive.2.2 (by intro hc; cases hc) (by intro hc; cases hc)
      dsimp only
      omega
  | sockDestroy attached =>
      have := hlive.2.2 (by intro hc; cases hc) (by intro hc; cases hc)
      dsimp only
      omega
  | reject =>
      have := hlive.2.2 (by intro hc; cases hc) (by intro hc; cases hc)
      dsimp only
      omega

theorem handlerInv_run : ∀ (evs : List (Nat × ListenerEvent)) (h h' : HandlerState),
    runHandler evs h = some h' →
    h.num_handler_connections = h.totalLiveConnections →
    h'.num_handler_connections = h'.totalLiveConnections := by
  intro evs
  induction evs with
  | nil =>
      intro h h' hr hinv
      simp only [runHandler, Option.some.injEq] at hr
      subst hr
      exact hinv
  | cons ie es ih =>
      intro h h' hr hinv
      obtain ⟨i, e⟩ := ie
      simp only [runHandler] at hr
      cases hst : stepHandler i e h with
      | none => rw [hst] at hr; cases hr
      | some h1 =>
          rw [hst] at hr
          exact ih h1 h' hr (handlerInv_step i e h h1 hst hinv)

theorem handlerInv_init (n : Nat) :
    (initHandler n).num_handler_connections = (initHandler n).totalLiveConnections := by
  simp [initHandler, HandlerState.totalLiveConnections, initListener]

/-! ## Helper lemmas: the socket-pipeline invariant -/

theorem drive_some_bounds : ∀ (fs : List FilterSpec) (base j : Nat),
    drive fs base = some j → base ≤ j ∧ j < base + fs.length := by
  intro fs
  induction fs with
  | nil => intro base j h; cases h
  | cons f rest ih =>
      intro base j h
      simp only [drive] at h
      split at h
      · have := ih (base + 1) j h
        simp only [List.length_cons]
        omega
      · cases hr : f.ret with
        | Continue =>
            rw [hr] at h
            simp only [] at h
            have := ih (base + 1) j h
            simp only [List.length_cons]
            omega
        | StopIteration =>
            rw [hr] at h
            simp only [Option.some.injEq] at h
            subst h
            simp only [List.length_cons]
            omega

theorem sockInv_reach : ∀ p, SockReach p → SockInv p := by
  intro p hr
  induction hr with
  | ctor =>
      refine ⟨fun _ => ⟨rfl, rfl⟩, ?_, fun _ _ => rfl⟩
      intro j hj
      cases hj
  | addFilter p f hp hst ih =>
      obtain ⟨i1, i2, i3⟩ := ih
      refine ⟨?_, ?_, ?_⟩
      · intro h
        exact i1 h
      · intro j hj
        have hb := i2 j hj
        refine ⟨?_, hb.2⟩
        dsimp only [addAcceptFilter]
        rw [List.length_append]
        omega
      · intro h1 _
        rw [show (addAcceptFilter f p).started = p.started from rfl] at h1
        rw [h1] at hst
        cases hst
  | cont p b hp hab ih =>
      obtain ⟨i1, i2, i3⟩ := ih
      cases b with
      | false =>
          refine ⟨?_, ?_, ?_⟩
          · intro h; exact i1 h
          · intro j hj; exact i2 j hj
          · intro h1 h2; exact i3 h1 h2
      | true =>
          have hst_le : resumeIndex p ≤ p.accept_filters.length := by
            cases hi : p.iter with
            | none => simp [resumeIndex, hi]
            | some k =>
                have := (i2 k hi).1
                simp only [resumeIndex, hi]
                omega
          refine ⟨?_, ?_, ?_⟩
          · intro h
            dsimp only [continueFilterChain] at h
            cases h
          · intro j hj
            dsimp only [continueFilterChain] at hj ⊢
            cases hr : drive (p.accept_filters.drop (resumeIndex p)) (resumeIndex p) with
            | none => rw [hr] at hj; cases hj
            | some k =>
                rw [hr] at hj
                have hkj := Option.some.inj hj
                subst hkj
                have hb := drive_some_bounds _ _ _ hr
                rw [List.length_drop] at hb
                exact ⟨by omega, rfl⟩
          · intro _ h2
            dsimp only [continueFilterChain] at h2 ⊢
            rw [h2]

/-! ## Claims -/

/-- Claim C1: at every quiescent point, the handler's global active-connection
counter `num_handler_connections_`, as returned by
`ConnectionHandlerImpl::numConnections`, equals the total number of live
`ActiveTcpConnection` objects across all buckets of all listeners owned by the
handler; each `onNewConnection` increments the counter by exactly one and each
`onDestroyConnection` decrements it by exactly one.  Every state of the model is
quiescent: each event runs to completion, including deferred destructor work. -/
theorem numConnections_eq_total_live_connections (n : Nat) :
    (∀ evs h, runHandler evs (initHandler n) = some h →
        h.numConnections = h.totalLiveConnections) ∧
    (∀ evs i h h', runHandler evs (initHandler n) = some h →
        stepHandler i ListenerEvent.connNew h = some h' →
        h'.num_handler_connections = h.num_handler_connections + 1) ∧
    (∀ evs i h h', runHandler evs (initHandler n) = some h →
        stepHandler i ListenerEvent.connDestroy h = some h' →
        h'.num_handler_connections + 1 = h.num_handler_connections) := by
  refine ⟨?_, ?_, ?_⟩
  · intro evs h hr
    exact handlerInv_run evs (initHandler n) h hr (handlerInv_init n)
  · intro evs i h h' _ hs
    simp only [stepHandler, Option.bind_eq_some, Option.map_eq_some'] at hs
    obtain ⟨ls, hget, ls', hstep, rfl⟩ := hs
    rfl
  · intro evs i h h' hr hs
    have hinv := handlerInv_run evs (initHandler n) h hr (handlerInv_init n)
    simp only [stepHandler, Option.bind_eq_some, Option.map_eq_some'] at hs
    obtain ⟨ls, hget, ls', hstep, rfl⟩ := hs
    have hlive := (stepListener_live_connections _ ls ls' hstep).2.1 rfl
    have hle := sum_map_le_of_get (fun l => l.live_connections) h.listeners i ls hget
    simp only [HandlerState.totalLiveConnections] at hinv hle
    dsimp only [handlerDecNumConnections]
    omega

/-- Witness for C1: after a listener accepts one socket whose pipeline completes
into a connection (and the socket is destructed with its socket moved), the
handler counter and the total live-connection count are both 1. -/
theorem numConnections_eq_total_live_connections_witness :
    HandlerState.numConnections ⟨1, [⟨1, 0, 1, 0, 0, 1, 1, 1, 1, 1, 0⟩]⟩ =
      HandlerState.totalLiveConnections ⟨1, [⟨1, 0, 1, 0, 0, 1, 1, 1, 1, 1, 0⟩]⟩ :=
  (numConnections_eq_total_live_connections 1).1
    [(0, ListenerEvent.incNum), (0, ListenerEvent.sockCreate), (0, ListenerEvent.connNew),
      (0, ListenerEvent.sockDestroy false)]
    ⟨1, [⟨1, 0, 1, 0, 0, 1, 1, 1, 1, 1, 0⟩]⟩ rfl

/-- Claim C2: for every listener, at every point in any execution,
`downstream_cx_total` minus `downstream_cx_destroy` equals the
`downstream_cx_active` gauge; `onNewConnection` increments total and active
together, `onDestroyConnection` increments destroy and decrements active
together, and no other listener operation changes any of the three stats. -/
theorem cx_total_minus_destroy_eq_active :
    (∀ evs s, runListener evs initListener = some s →
        s.downstream_cx_total - s.downstream_cx_destroy = s.downstream_cx_active) ∧
    (∀ s : ListenerState,
        (s.onNewConnection).downstream_cx_total = s.downstream_cx_total + 1 ∧
        (s.onNewConnection).downstream_cx_active = s.downstream_cx_active + 1 ∧
        (s.onNewConnection).downstream_cx_destroy = s.downstream_cx_destroy) ∧
    (∀ s : ListenerState,
        (s.onDestroyConnection).downstream_cx_destroy = s.downstream_cx_destroy + 1 ∧
        (s.onDestroyConnection).downstream_cx_active = s.downstream_cx_active - 1 ∧
        (s.onDestroyConnection).downstream_cx_total = s.downstream_cx_total) ∧
    (∀ e s s', e ≠ ListenerEvent.connNew → e ≠ ListenerEvent.connDestroy →
        stepListener e s = some s' →
        s'.downstream_cx_total = s.downstream_cx_total ∧
        s'.downstream_cx_destroy = s.downstream_cx_destroy ∧
        s'.downstream_cx_active = s.downstream_cx_active) := by
  refine ⟨?_, fun s => ⟨rfl, rfl, rfl⟩, fun s => ⟨rfl, rfl, rfl⟩, ?_⟩
  · intro evs s hr
    have hinv := listenerInv_run evs initListener s hr listenerInv_init
    obtain ⟨-, h2, -, -⟩ := hinv
    omega
  · intro e s s' hn hd hstep
    cases e with
    | connNew => exact absurd rfl hn
    | connDestroy => exact absurd rfl hd
    | incNum =>
        simp only [stepListener, Option.some.injEq] at hstep
        subst hstep
        exact ⟨rfl, rfl, rfl⟩
    | decNum =>
        simp only [stepListener] at hstep
        split at hstep
        · simp only [Option.some.injEq] at hstep
          subst hstep
          exact ⟨rfl, rfl, rfl⟩
        · cases hstep
    | sockCreate =>
        simp only [stepListener, Option.some.injEq] at hstep
        subst hstep
        exact ⟨rfl, rfl, rfl⟩
    | sockDestroy attached =>
        simp only [stepListener] at hstep
        split at hstep
        · simp only [Option.some.injEq] at hstep
          subst hstep
          cases attached <;> exact ⟨rfl, rfl, rfl⟩
        · cases hstep
    | reject =>
        simp only [stepListener, Option.some.injEq] at hstep
        subst hstep
        exact ⟨rfl, rfl, rfl⟩

/-- Witness for C2: after one accept, one connection and one destroy,
total = 1, destroy = 1, active = 0 and 1 - 1 = 0. -/
theorem cx_total_minus_destroy_eq_active_witness :
    ListenerState.downstream_cx_total ⟨1, 1, 0, 0, 0, 1, 0, 0, 0, 0, 0⟩ -
        ListenerState.downstream_cx_destroy ⟨1, 1, 0, 0, 0, 1, 0, 0, 0, 0, 0⟩ =
      ListenerState.downstream_cx_active ⟨1, 1, 0, 0, 0, 1, 0, 0, 0, 0, 0⟩ :=
  cx_total_minus_destroy_eq_active.1
    [ListenerEvent.incNum, ListenerEvent.connNew, ListenerEvent.connDestroy]
    ⟨1, 1, 0, 0, 0, 1, 0, 0, 0, 0, 0⟩ rfl

/-- Claim C3: at any observation point, a listener's `downstream_pre_cx_active`
gauge equals the number of live `ActiveTcpSocket` (respectively
`ActiveInternalSocket`) objects of that listener; the gauge is incremented
exactly once in each socket's constructor, decremented exactly once in its
destructor, and changed nowhere else. -/
theorem pre_cx_active_eq_live_sockets :
    (∀ evs s, runListener evs initListener = some s →
        s.downstream_pre_cx_active = s.live_sockets) ∧
    (∀ s : ListenerState,
        (s.socketConstructed).downstream_pre_cx_active = s.downstream_pre_cx_active + 1) ∧
    (∀ (attached : Bool) (s : ListenerState),
        (s.socketDestructed attached).downstream_pre_cx_active =
          s.downstream_pre_cx_active - 1) ∧
    (∀ e s s', e ≠ ListenerEvent.sockCreate →
        (∀ b, e ≠ ListenerEvent.sockDestroy b) →
        stepListener e s = some s' →
        s'.downstream_pre_cx_active = s.downstream_pre_cx_active) := by
  refine ⟨?_, fun s => rfl, ?_, ?_⟩
  · intro evs s hr
    exact (listenerInv_run evs initListener s hr listenerInv_init).2.2.1
  · intro attached s
    cases attached <;> rfl
  · intro e s s' hc hd hstep
    cases e with
    | sockCreate => exact absurd rfl hc
    | sockDestroy attached => exact absurd rfl (hd attached)
    | incNum =>
        simp only [stepListener, Option.some.injEq] at hstep
        subst hstep
        rfl
    | decNum =>
        simp only [stepListener] at hstep
        split at hstep
        · simp only [Option.some.injEq] at hstep
          subst hstep
          rfl
        · cases hstep
    | connNew =>
        simp only [stepListener, Option.some.injEq] at hstep
        subst hstep
        rfl
    | connDestroy =>
        simp only [stepListener] at hstep
        split at hstep
        · simp only [Option.some.injEq] at hstep
          subst hstep
          rfl
        · cases hstep
    | reject =>
        simp only [stepListener, Option.some.injEq] at hstep
        subst hstep
        rfl

/-- Witness for C3: after one socket construction, the pre-connection gauge and
the live-socket count are both 1. -/
theorem pre_cx_active_eq_live_sockets_witness :
    ListenerState.downstream_pre_cx_active ⟨0, 0, 0, 1, 0, 0, 0, 0, 0, 0, 1⟩ =
      ListenerState.live_sockets ⟨0, 0, 0, 1, 0, 0, 0, 0, 0, 0, 1⟩ :=
  pre_cx_active_eq_live_sockets.1 [ListenerEvent.sockCreate]
    ⟨0, 0, 0, 1, 0, 0, 0, 0, 0, 0, 1⟩ rfl

/-- Claim C8: when an active socket is destructed after its socket was moved into
a new connection (`socket_ == nullptr`, `attached = false`), the destructor
leaves the per-listener connection count (and the limiter occupancy) unchanged;
when the socket was not moved (`attached = true`), the destructor decrements the
per-listener connection count exactly once (under the destructor's
`ASSERT(num_listener_connections_ > 0)` precondition). -/
theorem socket_destructor_listener_count :
    (∀ s : ListenerState,
        (s.socketDestructed false).num_listener_connections = s.num_listener_connections ∧
        (s.socketDestructed false).open_connections = s.open_connections) ∧
    (∀ s : ListenerState, 0 < s.num_listener_connections →
        (s.socketDestructed true).num_listener_connections + 1 =
          s.num_listener_connections) := by
  refine ⟨fun s => ⟨rfl, rfl⟩, ?_⟩
  intro s h
  show s.num_listener_connections - 1 + 1 = s.num_listener_connections
  omega

/-- Witness for C8: a destructor run with the socket still attached takes the
per-listener count from 1 to 0. -/
theorem socket_destructor_listener_count_witness :
    (ListenerState.socketDestructed true ⟨0, 0, 0, 1, 0, 0, 0, 1, 1, 0, 1⟩).num_listener_connections
        + 1 = 1 :=
  socket_destructor_listener_count.2 ⟨0, 0, 0, 1, 0, 0, 0, 1, 1, 0, 1⟩ (by decide)

/-- Claim C10: for both listener kinds, the per-listener counter
`num_listener_connections_` and the `openConnections()` limiter occupancy change
in lockstep: `incNumConnections` increments both, `decNumConnections` decrements
both after asserting the counter is positive, every listener operation touches
the pair only through those two, and over any execution the limiter's net
occupancy equals `num_listener_connections_`. -/
theorem listener_count_limiter_lockstep :
    (∀ s : ListenerState,
        (s.incNumConnections).num_listener_connections = s.num_listener_connections + 1 ∧
        (s.incNumConnections).open_connections = s.open_connections + 1) ∧
    (∀ s : ListenerState, 0 < s.num_listener_connections → 0 < s.open_connections →
        (s.decNumConnections).num_listener_connections + 1 = s.num_listener_connections ∧
        (s.decNumConnections).open_connections + 1 = s.open_connections) ∧
    (∀ e s s', stepListener e s = some s' →
        (s'.num_listener_connections = s.num_listener_connections ∧
          s'.open_connections = s.open_connections) ∨
        (s'.num_listener_connections = s.num_listener_connections + 1 ∧
          s'.open_connections = s.open_connections + 1) ∨
        (0 < s.num_listener_connections ∧
          s'.num_listener_connections = s.num_listener_connections - 1 ∧
          s'.open_connections = s.open_connections - 1)) ∧
    (∀ evs s, runListener evs initListener = some s →
        s.open_connections = s.num_listener_connections) := by
  refine ⟨fun s => ⟨rfl, rfl⟩, ?_, ?_, ?_⟩
  · intro s h1 h2
    dsimp only [ListenerState.decNumConnections]
    omega
  · intro e s s' hstep
    cases e with
    | incNum =>
        simp only [stepListener, Option.some.injEq] at hstep
        subst hstep
        exact Or.inr (Or.inl ⟨rfl, rfl⟩)
    | decNum =>
        simp only [stepListener] at hstep
        split at hstep
        · rename_i hpos
          simp only [Option.some.injEq] at hstep
          subst hstep
          exact Or.inr (Or.inr ⟨hpos, rfl, rfl⟩)
        · cases hstep
    | sockCreate =>
        simp only [stepListener, Option.some.injEq] at hstep
        subst hstep
        exact Or.inl ⟨rfl, rfl⟩
    | sockDestroy attached =>
        simp only [stepListener] at hstep
        split at hstep
        · rename_i hcond
          simp only [Option.some.injEq] at hstep
          subst hstep
          cases attached with
          | false => exact Or.inl ⟨rfl, rfl⟩
          | true => exact Or.inr (Or.inr ⟨hcond.2 rfl, rfl, rfl⟩)
        · cases hstep
    | connNew =>
        simp only [stepListener, Option.some.injEq] at hstep
        subst hstep
        exact Or.inl ⟨rfl, rfl⟩
    | connDestroy =>
        simp only [stepListener] at hstep
        split at hstep
        · rename_i hcond
          simp only [Option.some.injEq] at hstep
          subst hstep
          exact Or.inr (Or.inr ⟨hcond.2, rfl, rfl⟩)
        · cases hstep
    | reject =>
        simp only [stepListener, Option.some.injEq] at hstep
        subst hstep
        exact Or.inl ⟨rfl, rfl⟩
  · intro evs s hr
    exact (listenerInv_run evs initListener s hr listenerInv_init).2.2.2

/-- Witness for C10: after one `incNumConnections`, the limiter occupancy and the
listener counter are both 1. -/
theorem listener_count_limiter_lockstep_witness :
    ListenerState.open_connections ⟨0, 0, 0, 0, 0, 0, 0, 1, 1, 0, 0⟩ =
      ListenerState.num_listener_connections ⟨0, 0, 0, 0, 0, 0, 0, 1, 1, 0, 0⟩ :=
  listener_count_limiter_lockstep.2.2.2 [ListenerEvent.incNum]
    ⟨0, 0, 0, 0, 0, 0, 0, 1, 1, 0, 0⟩ rfl

/-- Counterexample to claim C4 as stated: immediately after construction and
`addAcceptFilter` — a state every execution with a configured listener filter
passes through, before any filter has run — the cursor `iter_` still equals
`accept_filters_.end()` (the constructor's sentinel survives the append), so
`isListenerFiltersCompleted()` returns true even though the one-filter chain has
not completed. -/
theorem iter_end_before_chain_started :
    SockReach (addAcceptFilter ⟨false, FilterReturn.Continue⟩ mkSocketPipeline) ∧
    isListenerFiltersCompleted
        (addAcceptFilter ⟨false, FilterReturn.Continue⟩ mkSocketPipeline) = true ∧
    ¬ chainCompleted (addAcceptFilter ⟨false, FilterReturn.Continue⟩ mkSocketPipeline) :=
  ⟨SockReach.addFilter _ _ SockReach.ctor rfl, rfl, fun h => nomatch h.1⟩

/-- Claim C4, amended: once the filter pipeline has been started by
`continueFilterChain`, the cursor `iter_` equals `accept_filters_.end()` — and
`isListenerFiltersCompleted()` returns true — exactly when the filter chain has
completed without suspension.  Before the first `continueFilterChain`, `iter_`
also sits at `end()` (the constructor uses the sentinel as the not-yet-started
marker), so the equivalence only holds from the start of the pipeline on. -/
theorem iter_end_iff_chain_completed_after_start
    (p : SocketPipeline) (hr : SockReach p) (hst : p.started = true) :
    isListenerFiltersCompleted p = true ↔ chainCompleted p := by
  obtain ⟨i1, i2, i3⟩ := sockInv_reach p hr
  constructor
  · intro h
    have hnone : p.iter = none := by
      cases hi : p.iter with
      | none => rfl
      | some j =>
          rw [isListenerFiltersCompleted, hi] at h
          cases h
    exact ⟨hst, i3 hst hnone⟩
  · rintro ⟨-, hproc⟩
    cases hi : p.iter with
    | none => simp [isListenerFiltersCompleted, hi]
    | some j =>
        have hb := i2 j hi
        omega

/-- Witness for the amended C4: driving the one-filter pipeline to completion
makes `isListenerFiltersCompleted()` agree with chain completion. -/
theorem iter_end_iff_chain_completed_witness :
    isListenerFiltersCompleted
        (continueFilterChain true
          (addAcceptFilter ⟨false, FilterReturn.Continue⟩ mkSocketPipeline)) = true ↔
      chainCompleted
        (continueFilterChain true
          (addAcceptFilter ⟨false, FilterReturn.Continue⟩ mkSocketPipeline)) :=
  iter_end_iff_chain_completed_after_start _
    (SockReach.cont _ true (SockReach.addFilter _ _ SockReach.ctor rfl) rfl) rfl

/-- Claim C5: an `ActiveTcpConnection` is destroyed exclusively via a
connection-level close event: `onEvent` invokes `removeConnection` exactly on a
`LocalClose` or `RemoteClose` event, and the write-buffer watermark callbacks
perform no action at all. -/
theorem onEvent_close_iff_removeConnection :
    (∀ event, ConnCallbackAction.removeConnection ∈ ActiveTcpConnection.onEvent event ↔
        (event = ConnectionEvent.LocalClose ∨ event = ConnectionEvent.RemoteClose)) ∧
    ActiveTcpConnection.onAboveWriteBufferHighWatermark = [] ∧
    ActiveTcpConnection.onBelowWriteBufferLowWatermark = [] := by
  refine ⟨?_, rfl, rfl⟩
  intro event
  cases event <;> simp [ActiveTcpConnection.onEvent]

/-- Witness for C5: a `LocalClose` event does invoke `removeConnection`. -/
theorem onEvent_close_iff_removeConnection_witness :
    ConnCallbackAction.removeConnection ∈
      ActiveTcpConnection.onEvent ConnectionEvent.LocalClose :=
  (onEvent_close_iff_removeConnection.1 ConnectionEvent.LocalClose).mpr (Or.inl rfl)

/-- Claim C6: `pauseListening()` and `resumeListening()` on an
`ActiveInternalListener` forward to `InternalListenerImpl::disable()` /
`enable()`, which fail loudly via `NOT_IMPLEMENTED` (an aborting panic) rather
than silently disabling or enabling acceptance. -/
theorem internal_pause_resume_not_implemented :
    ActiveInternalListener.pauseListening = CallOutcome.notImplementedAbort ∧
    ActiveInternalListener.resumeListening = CallOutcome.notImplementedAbort :=
  ⟨rfl, rfl⟩

/-- Counterexample to claim C7 as stated: for a concrete socket and a concrete
nonempty peer-metadata blob, the stream info the code's internal-listener accept
path produces at pipeline start differs from the spec-modelled one, and in
particular does not contain the blob: the callback registered under
`internal_listener_id` passes only the socket to `onNewSocket`. -/
theorem internal_accept_metadata_counterexample :
    internalAcceptPathStreamInfo 0 ⟨1, 2, 3⟩ [("peer.filter", "v")] ≠
        specInternalAcceptStreamInfo ⟨1, 2, 3⟩ [("peer.filter", "v")] ∧
    (internalAcceptPathStreamInfo 0 ⟨1, 2, 3⟩ [("peer.filter", "v")]).dynamicMetadata ≠
        [("peer.filter", "v")] := by
  refine ⟨?_, ?_⟩ <;> decide

/-- Claim C7, amended: the accept callback registered with the dispatcher under
`internal_listener_id` supplies the socket alone (forwarding it unchanged to
`onNewSocket`); no dynamic-metadata blob travels with it, and the
`ActiveInternalSocket`'s stream info enters the pre-connection pipeline with the
socket's addresses set and empty dynamic metadata, whatever metadata the
initiating peer filter holds. -/
theorem internal_accept_socket_only_empty_metadata
    (peerAddress : Nat) (sock : ConnectionSocket) (peerMetadata : DynMetadata) :
    (internalAcceptCallback peerAddress sock).socket = sock ∧
    (internalAcceptPathStreamInfo peerAddress sock peerMetadata).dynamicMetadata = [] ∧
    (internalAcceptPathStreamInfo peerAddress sock peerMetadata).downstreamLocalAddress =
        some sock.localAddress ∧
    (internalAcceptPathStreamInfo peerAddress sock peerMetadata).downstreamRemoteAddress =
        some sock.remoteAddress :=
  ⟨rfl, rfl, rfl, rfl⟩

/-- Claim C9: `ActiveRawUdpListener::shutdownListener` releases the UDP read
filter strictly before it releases the UDP listener. -/
theorem shutdown_releases_read_filter_before_listener :
    shutdownListenerReleaseOrder.indexOf UdpMember.readFilter <
      shutdownListenerReleaseOrder.indexOf UdpMember.udpListener := by
  decide

end Envoy
